import Mathlib

/-!
Shallow embedding of `src/rtmp_stream_viewer.py` (RTMP_Stream_Viewer).

The embedding covers the two core components the specification describes:

* `VideoThread` (the capture worker): the per-frame metrics computation of
  `VideoThread.run` (lines 60-108) — the moving-average FPS over a bounded
  `deque`, the bitrate accumulator, the per-session resolution/status
  emissions, and the reconnect backoff loop — together with
  `VideoThread.stop` (lines 110-112).
* `handle_client` (the handshake listener, lines 251-272): the simplified
  RTMP handshake byte exchange.

Python `float` time values and metric values are idealised as rationals
(`ℚ`); Python's `ZeroDivisionError` is modelled with `Except`.  Byte
strings are modelled as `List Nat`.  A `collections.deque` with `maxlen`
is modelled as a list holding the oldest element first, `append` evicting
from the front on overflow, exactly as the Python deque behaves.
-/

namespace RTMPViewer

/-- A Python runtime error that the embedded code can raise.
`VideoThread.run` computes `1.0 / (current_time - prev_time)` with no
guard, so equal consecutive timestamps raise `ZeroDivisionError`. -/
inductive PyError where
  | zeroDivision
  deriving Repr, DecidableEq

/-- A Python `collections.deque` with maxlen `cap`, holding rationals,
oldest first.  Its `append` pushes at the right end and silently discards
the leftmost element when the deque is full - the behaviour of
`self.fps_history.append(fps)` at line 81. -/
def dequeAppend (cap : Nat) (q : List ℚ) (x : ℚ) : List ℚ :=
  let q2 := q ++ [x]
  if cap < q2.length then q2.drop (q2.length - cap) else q2

/-- The mutable state that `VideoThread.run` threads through its inner
read loop: the worker-lifetime `fps_history` deque (created once in
`__init__`, line 58) with its capacity, and the per-session locals
`prev_time`, `frame_count`, `total_size` (lines 65-67). -/
structure MetricsState where
  fps_history : List ℚ
  histCap : Nat
  prev_time : ℚ
  frame_count : Nat
  total_size : Nat
  deriving Repr, DecidableEq

/-- What one successful `cap.read()` iteration of the inner loop emits:
the recomputed moving-average FPS (`self.fps_signal.emit(avg_fps)`,
line 83) and, when the accumulator threshold is crossed, the bitrate
value with its unit string (lines 90-96). -/
structure FrameOutput where
  fpsEmit : ℚ
  bitrateEmit : Option (ℚ × String)
  deriving Repr, DecidableEq

/-- One successful iteration of the inner read loop of `VideoThread.run`
(lines 77-100), given the frame arrival time `current_time` and the frame
payload size `frame_size` (`cv_img.nbytes`).  Faithful to the source:

* `fps = 1.0 / (current_time - prev_time)` — no division-by-zero guard,
  so a zero interval raises (modelled as `Except.error .zeroDivision`);
* the new fps is appended to the bounded deque and
  `avg_fps = sum(self.fps_history) / len(self.fps_history)`;
* when `frame_count >= avg_fps` the bitrate is
  `(total_size * 8) / 1000` ("in kbps"), promoted to Mbps only when
  strictly greater than 2000, and the accumulator is reset. -/
def frameStep (current_time : ℚ) (frame_size : Nat) (st : MetricsState) :
    Except PyError (FrameOutput × MetricsState) :=
  let dt := current_time - st.prev_time
  if dt = 0 then
    .error .zeroDivision
  else
    let fps := 1 / dt
    let hist := dequeAppend st.histCap st.fps_history fps
    let avg_fps := hist.sum / (hist.length : ℚ)
    let total := st.total_size + frame_size
    let fc := st.frame_count + 1
    if avg_fps ≤ (fc : ℚ) then
      let bitrate : ℚ := (total * 8 : ℚ) / 1000
      let emitted : ℚ × String :=
        if 2000 < bitrate then (bitrate / 1000, "Mbps") else (bitrate, "kbps")
      .ok ({ fpsEmit := avg_fps, bitrateEmit := some emitted },
           { fps_history := hist, histCap := st.histCap, prev_time := current_time,
             frame_count := 0, total_size := 0 })
    else
      .ok ({ fpsEmit := avg_fps, bitrateEmit := none },
           { fps_history := hist, histCap := st.histCap, prev_time := current_time,
             frame_count := fc, total_size := total })

/-- The admission of one inter-frame interval into the history, as the
spec's `MetricsAggregator.pushSample` describes lines 79-82: the instantaneous
fps `1 / interval` is pushed into the bounded deque and the returned
average is `sum / len` of the held values. -/
def pushSample (cap : Nat) (hist : List ℚ) (interval : ℚ) : List ℚ × ℚ :=
  let hist2 := dequeAppend cap hist (1 / interval)
  (hist2, hist2.sum / (hist2.length : ℚ))

/-- Admitting a whole sequence of inter-frame intervals, oldest first,
starting from history `hist`; returns the final history and the average
emitted after the last admission (0 when no interval was admitted). -/
def pushSamples (cap : Nat) (hist : List ℚ) (intervals : List ℚ) : List ℚ × ℚ :=
  match intervals with
  | [] => (hist, 0)
  | i :: rest =>
      let r := pushSample cap hist i
      match rest with
      | [] => r
      | _ => pushSamples cap r.1 rest

/-- The last `cap` elements of a list (the survivors of repeated
front-eviction). -/
def lastN (cap : Nat) (l : List ℚ) : List ℚ :=
  l.drop (l.length - cap)

/-- The metrics state at the moment a session opens successfully
(lines 63-67 of the source): the per-session locals are initialised -
`prev_time = time.time()`, `frame_count = 0`, `total_size = 0` - while
`self.fps_history`, created once in `__init__` (line 58), is carried over
untouched from whatever it held before. -/
def sessionInit (cap : Nat) (hist : List ℚ) (t_open : ℚ) : MetricsState :=
  { fps_history := hist, histCap := cap, prev_time := t_open,
    frame_count := 0, total_size := 0 }

/-- Running the inner read loop of `VideoThread.run` over a list of
successfully read frames (arrival time, payload size), collecting the
per-frame outputs.  A `ZeroDivisionError` aborts the loop (the exception
propagates out of `run`), recorded as the final `Option PyError`. -/
def runFrames (st : MetricsState) (frames : List (ℚ × Nat)) :
    List FrameOutput × MetricsState × Option PyError :=
  match frames with
  | [] => ([], st, none)
  | (t, sz) :: rest =>
      match frameStep t sz st with
      | .error e => ([], st, some e)
      | .ok (out, st2) =>
          let r := runFrames st2 rest
          (out :: r.1, r.2)

/-- The events `VideoThread.run` emits through its Qt signals. -/
inductive Ev where
  | status (connected : Bool)
  | resolution (w h : Nat)
  | fps (v : ℚ)
  | bitrate (v : ℚ) (unit : String)
  | frame
  deriving Repr, DecidableEq

/-- Whether an event is a `resolution_signal` emission. -/
def isResolutionEv : Ev → Bool
  | .resolution _ _ => true
  | _ => false

/-- The events one successful inner-loop iteration emits, in source
order: `fps_signal` (line 83), then `bitrate_signal` when the threshold
was crossed (lines 94/96), then `change_pixmap_signal` (line 100). -/
def frameEvents (out : FrameOutput) : List Ev :=
  Ev.fps out.fpsEmit ::
    ((match out.bitrateEmit with
      | some (v, u) => [Ev.bitrate v u]
      | none => []) ++ [Ev.frame])

/-- The full event trace of one successful session of `VideoThread.run`
(lines 63-104): `stream_status_signal(True)`, then the resolution -
emitted once, before the inner loop - then the per-frame events, and
finally `stream_status_signal(False)` after the inner loop breaks on a
failed read (when no exception cut the loop short). -/
def sessionEvents (w h cap : Nat) (hist : List ℚ) (t0 : ℚ)
    (frames : List (ℚ × Nat)) : List Ev :=
  let r := runFrames (sessionInit cap hist t0) frames
  Ev.status true :: Ev.resolution w h ::
    (r.1.flatMap frameEvents ++
      (match r.2.2 with
       | none => [Ev.status false]
       | some _ => []))

/-- One session of the outer loop, as scripted input: the open time and
the frames the inner loop reads before the stream drops. -/
structure SessionScript where
  t_open : ℚ
  frames : List (ℚ × Nat)
  deriving Repr, DecidableEq

/-- One successful session starting from the worker-lifetime history
`hist`: the per-frame outputs and the history as it stands when the
session ends. -/
def runSession (cap : Nat) (hist : List ℚ) (s : SessionScript) :
    List FrameOutput × List ℚ :=
  let r := runFrames (sessionInit cap hist s.t_open) s.frames
  (r.1, r.2.1.fps_history)

/-- The worker-lifetime history threaded through a sequence of sessions
by the outer loop of `VideoThread.run`: each session starts from the
history the previous one left behind (nothing clears it), and returns
the history it ends with. -/
def runWorkerSessions (cap : Nat) (hist : List ℚ) :
    List SessionScript → List ℚ
  | [] => hist
  | s :: rest => runWorkerSessions cap (runSession cap hist s).2 rest

/-- The per-connection handshake states named by the specification. -/
inductive HandshakeState where
  | AwaitClientHello
  | AwaitClientAck
  | Established
  | Aborted
  deriving Repr, DecidableEq

/-- What a run of `handle_client` does on a connection: the byte strings
written to the socket, in order, and the handshake state reached. -/
structure HandshakeResult where
  writes : List (List Nat)
  state : HandshakeState
  deriving Repr, DecidableEq

/-- The handshake portion of `handle_client` (lines 251-265), as a
function of the server-generated random payload (the `os.urandom(1535)`
result) and of the byte strings the two `reader.read(1536)` calls
return.  Faithful to the source: `reader.read(1536)` returns AT MOST
1536 bytes (an empty string when the peer closed), and the code never
checks the length of either read - it always writes
`s1 = b'\x03' + os.urandom(1535)`, then always echoes `s2 = c1`,
whatever `c1` was, and then proceeds to the post-handshake message loop.
There is no abort branch in the handshake code. -/
def handle_client (rand c1 c2 : List Nat) : HandshakeResult :=
  let s1 := 3 :: rand
  let s2 := c1
  { writes := [s1, s2], state := .Established }

/-- Where the outer loop of `VideoThread.run` stands, at millisecond
granularity for the backoff sleep. -/
inductive WPhase where
  | loopTop
  | sleeping (remaining : Nat)
  | exited
  deriving Repr, DecidableEq

/-- The worker's observable state for the reconnect-backoff portion of
`VideoThread.run`: its phase, the `_run_flag` field, and how many open
attempts (`cv2.VideoCapture(...)` constructions) it has made. -/
structure WorkerState where
  phase : WPhase
  run_flag : Bool
  openAttempts : Nat
  deriving Repr, DecidableEq

/-- One step of the outer loop of `VideoThread.run` along the
open-failure path (lines 61-62 and 105-108; the stream stays
unavailable, as in the reconnect-backoff scenario).  At the loop top the
`while self._run_flag` condition is checked: if clear the loop exits,
otherwise an open is attempted, fails, and the worker enters
`self.msleep(1000)`.  Each sleeping step is one elapsed millisecond;
the sleep IGNORES `run_flag`, exactly as `msleep` runs to completion
regardless of `_run_flag` - nothing in the source interrupts it. -/
def workerStep (s : WorkerState) : WorkerState :=
  match s.phase with
  | .exited => s
  | .loopTop =>
      if s.run_flag then
        { s with phase := .sleeping 1000, openAttempts := s.openAttempts + 1 }
      else
        { s with phase := .exited }
  | .sleeping (n + 1) => { s with phase := .sleeping n }
  | .sleeping 0 => { s with phase := .loopTop }

/-- The effect of `VideoThread.stop` (lines 110-112) on the worker
state: it only clears `_run_flag` (and then blocks in `self.wait()`);
it does not touch the worker's phase - in particular it does not wake a
sleeping worker. -/
def stopWorker (s : WorkerState) : WorkerState :=
  { s with run_flag := false }

/-- Iterating the worker loop for a given number of steps. -/
def workerRun : Nat → WorkerState → WorkerState
  | 0, s => s
  | n + 1, s => workerRun n (workerStep s)

/-! ## Helper lemmas about the bounded deque -/

theorem dequeAppend_length_le (cap : Nat) (q : List ℚ) (x : ℚ)
    (h : q.length ≤ cap) : (dequeAppend cap q x).length ≤ cap := by
  unfold dequeAppend
  dsimp only
  split
  · simp only [List.length_drop]
    omega
  · simp only [List.length_append, List.length_cons, List.length_nil] at *
    omega

theorem dequeAppend_eq_lastN (cap : Nat) (q : List ℚ) (x : ℚ) :
    dequeAppend cap q x = lastN cap (q ++ [x]) := by
  unfold dequeAppend lastN
  dsimp only
  split
  · rfl
  · rename_i h
    rw [Nat.sub_eq_zero_of_le (by omega), List.drop_zero]

theorem lastN_of_length_le (cap : Nat) (l : List ℚ) (h : l.length ≤ cap) :
    lastN cap l = l := by
  unfold lastN
  rw [Nat.sub_eq_zero_of_le h, List.drop_zero]

theorem lastN_append_lastN (cap : Nat) (l r : List ℚ) :
    lastN cap (lastN cap l ++ r) = lastN cap (l ++ r) := by
  unfold lastN
  rw [← List.drop_append_of_le_length (Nat.sub_le l.length cap)]
  rw [List.drop_drop]
  congr 1
  simp only [List.length_drop, List.length_append]
  omega

theorem pushSamples_fst (cap : Nat) (ivs : List ℚ) :
    ∀ hist : List ℚ, hist.length ≤ cap →
      (pushSamples cap hist ivs).1 = lastN cap (hist ++ ivs.map (fun i => 1 / i)) := by
  induction ivs with
  | nil =>
      intro hist h
      simp only [pushSamples, List.map_nil, List.append_nil]
      rw [lastN_of_length_le cap hist h]
  | cons i rest ih =>
      intro hist h
      cases rest with
      | nil =>
          simp only [pushSamples, pushSample, List.map_cons, List.map_nil]
          rw [dequeAppend_eq_lastN]
      | cons j rest2 =>
          show (pushSamples cap (pushSample cap hist i).1 (j :: rest2)).1 = _
          rw [ih (pushSample cap hist i).1 (dequeAppend_length_le cap hist (1 / i) h)]
          show lastN cap (dequeAppend cap hist (1 / i) ++ _) = _
          rw [dequeAppend_eq_lastN, lastN_append_lastN]
          simp [List.append_assoc]

theorem pushSamples_snd (cap : Nat) (ivs : List ℚ) (hne : ivs ≠ []) :
    ∀ hist : List ℚ,
      (pushSamples cap hist ivs).2 =
        (pushSamples cap hist ivs).1.sum / ((pushSamples cap hist ivs).1.length : ℚ) := by
  induction ivs with
  | nil => exact absurd rfl hne
  | cons i rest ih =>
      intro hist
      cases rest with
      | nil => rfl
      | cons j rest2 =>
          show (pushSamples cap (pushSample cap hist i).1 (j :: rest2)).2 = _
          exact ih (List.cons_ne_nil j rest2) (pushSample cap hist i).1

/-! ## C1 -/

/-- C1, corrected: the average FPS `VideoThread.run` emits after the
last admission is the arithmetic mean of the reciprocals of the held
intervals (the instantaneous FPS values appended at line 81), NOT the
reciprocal of the arithmetic mean of the intervals; and the window holds
the last `cap` instantaneous values, the oldest being evicted once more
than `cap` intervals have been admitted. -/
theorem pushSamples_mean_of_rates_sliding_window (cap : Nat) (ivs : List ℚ)
    (hcap : 0 < cap) (hne : ivs ≠ []) (hnz : ∀ i ∈ ivs, i ≠ 0) :
    (pushSamples cap [] ivs).1 = lastN cap (ivs.map (fun i => 1 / i)) ∧
    (pushSamples cap [] ivs).2 =
      (lastN cap (ivs.map (fun i => 1 / i))).sum /
        ((lastN cap (ivs.map (fun i => 1 / i))).length : ℚ) := by
  have h1 := pushSamples_fst cap ivs [] (by simp)
  simp only [List.nil_append] at h1
  refine ⟨h1, ?_⟩
  rw [pushSamples_snd cap ivs hne [], h1]

/-- Witness for `pushSamples_mean_of_rates_sliding_window`: history length
3, intervals 1, 1/2, 1/3, 1/4 - the first interval is evicted and the
emitted average is (2 + 3 + 4) / 3 = 3. -/
theorem pushSamples_mean_of_rates_sliding_window_witness :
    (pushSamples 3 [] [1, 1/2, 1/3, 1/4]).1 = lastN 3 ([1, 1/2, 1/3, 1/4].map (fun i => 1 / i)) ∧
    (pushSamples 3 [] [1, 1/2, 1/3, 1/4]).2 =
      (lastN 3 ([1, 1/2, 1/3, 1/4].map (fun i => 1 / i))).sum /
        ((lastN 3 ([1, 1/2, 1/3, 1/4].map (fun i => 1 / i))).length : ℚ) :=
  pushSamples_mean_of_rates_sliding_window 3 [1, 1/2, 1/3, 1/4]
    (by norm_num) (by simp) (by norm_num)

/-- C1 counterexample: with the default history length 120 and the two
admitted intervals 1 and 1/2 (so N = 2 ≤ 120), the code emits
(1/1 + 1/(1/2)) / 2 = 3/2, while the reciprocal of the arithmetic mean
of the intervals is 1 / ((1 + 1/2) / 2) = 4/3; the two differ. -/
theorem pushSamples_avg_ne_reciprocal_of_mean_interval :
    (pushSamples 120 [] [1, 1/2]).2 = 3/2 ∧
    1 / (((1 : ℚ) + 1/2) / 2) = 4/3 ∧
    (pushSamples 120 [] [1, 1/2]).2 ≠ 1 / (((1 : ℚ) + 1/2) / 2) := by
  norm_num [pushSamples, pushSample, dequeAppend]

/-! ## C2 and C3: the bitrate emission -/

/-- Characterisation of a bitrate emission of `frameStep` (lines 90-96
of the source): whenever `bitrate_signal` fires, the kbps value the code
computed is `(total_size * 8) / 1000` with the accumulated bytes
including the current frame, and the emitted pair is either that value
tagged `"kbps"`, or, when it strictly exceeds 2000, the value divided by
1000 and tagged `"Mbps"`. -/
theorem frameStep_emit_cases (t : ℚ) (sz : Nat) (st : MetricsState)
    (out : FrameOutput) (st2 : MetricsState) (v : ℚ) (u : String)
    (h : frameStep t sz st = .ok (out, st2))
    (he : out.bitrateEmit = some (v, u)) :
    (2000 < (((st.total_size + sz : Nat) : ℚ) * 8) / 1000 ∧
      v = ((((st.total_size + sz : Nat) : ℚ) * 8) / 1000) / 1000 ∧ u = "Mbps") ∨
    (¬ 2000 < (((st.total_size + sz : Nat) : ℚ) * 8) / 1000 ∧
      v = (((st.total_size + sz : Nat) : ℚ) * 8) / 1000 ∧ u = "kbps") := by
  unfold frameStep at h
  dsimp only at h
  split at h
  · exact Except.noConfusion h
  · split at h
    · rw [Except.ok.injEq, Prod.mk.injEq] at h
      obtain ⟨ho, hs⟩ := h
      subst ho
      dsimp only at he
      split at he
      · rename_i hgt
        rw [Option.some.injEq, Prod.mk.injEq] at he
        obtain ⟨hv, hu⟩ := he
        exact Or.inl ⟨hgt, hv.symm, hu.symm⟩
      · rename_i hle
        rw [Option.some.injEq, Prod.mk.injEq] at he
        obtain ⟨hv, hu⟩ := he
        exact Or.inr ⟨hle, hv.symm, hu.symm⟩
    · rw [Except.ok.injEq, Prod.mk.injEq] at h
      obtain ⟨ho, hs⟩ := h
      subst ho
      exact Option.noConfusion he

/-- C2, corrected: whenever the accumulated frame count reaches the
current average FPS and `bitrate_signal` fires, the kbps value the code
computes is `(accumulated bytes × 8) / 1000` - the divisor is the fixed
constant 1000, independent of the elapsed window duration; the elapsed
time between the frames of the window plays no part in the value. -/
theorem frameStep_bitrate_constant_divisor (t : ℚ) (sz : Nat)
    (st : MetricsState) (out : FrameOutput) (st2 : MetricsState)
    (v : ℚ) (u : String)
    (h : frameStep t sz st = .ok (out, st2))
    (he : out.bitrateEmit = some (v, u)) :
    (u = "kbps" → v = (((st.total_size + sz : Nat) : ℚ) * 8) / 1000) ∧
    (u = "Mbps" → v = ((((st.total_size + sz : Nat) : ℚ) * 8) / 1000) / 1000) := by
  rcases frameStep_emit_cases t sz st out st2 v u h he with
    ⟨_, hv, hu⟩ | ⟨_, hv, hu⟩
  · constructor
    · intro hk
      rw [hu] at hk
      exact absurd hk (by decide)
    · intro _
      exact hv
  · constructor
    · intro _
      exact hv
    · intro hk
      rw [hu] at hk
      exact absurd hk (by decide)

/-- Witness for `frameStep_bitrate_constant_divisor`: frame at time 2,
1000 bytes, from a fresh session state - emits 8 "kbps", and indeed
8 = ((0 + 1000) × 8) / 1000. -/
theorem frameStep_bitrate_constant_divisor_witness :
    ("kbps" = "kbps" → (8 : ℚ) = ((((0 + 1000 : Nat)) : ℚ) * 8) / 1000) ∧
    ("kbps" = "Mbps" → (8 : ℚ) = (((((0 + 1000 : Nat)) : ℚ) * 8) / 1000) / 1000) :=
  frameStep_bitrate_constant_divisor 2 1000
    { fps_history := [], histCap := 120, prev_time := 0, frame_count := 0, total_size := 0 }
    { fpsEmit := 1/2, bitrateEmit := some (8, "kbps") }
    { fps_history := [1/2], histCap := 120, prev_time := 2, frame_count := 0, total_size := 0 }
    8 "kbps" (by norm_num [frameStep, dequeAppend]) rfl

/-- C2 counterexample: from a fresh session state opened at time 0, a
single 1000-byte frame arriving at time 2 crosses the threshold
(avg FPS = 1/2 ≤ 1 = frame count) and the code emits 8 kbps; the
elapsed window duration is 2000 ms, so the claimed value
(bytes × 8) / elapsed-ms = 8000 / 2000 = 4 differs from what the code
emits. -/
theorem frameStep_bitrate_ignores_elapsed :
    frameStep 2 1000
        { fps_history := [], histCap := 120, prev_time := 0,
          frame_count := 0, total_size := 0 } =
      .ok ({ fpsEmit := 1/2, bitrateEmit := some (8, "kbps") },
           { fps_history := [1/2], histCap := 120, prev_time := 2,
             frame_count := 0, total_size := 0 }) ∧
    ((2 : ℚ) - 0) * 1000 = 2000 ∧
    (1000 * 8 : ℚ) / 2000 = 4 ∧
    (8 : ℚ) ≠ 4 := by
  norm_num [frameStep, dequeAppend]

/-- C3, corrected: the emitted unit is `"Mbps"` iff the computed kbps
value is STRICTLY greater than 2000 (the source tests `bitrate > 2000`,
line 92); at exactly 2000 kbps the unit is `"kbps"`.  When the unit is
`"Mbps"` the emitted value is the kbps value divided by 1000, otherwise
the kbps value is emitted unchanged. -/
theorem frameStep_unit_strict_threshold (t : ℚ) (sz : Nat)
    (st : MetricsState) (out : FrameOutput) (st2 : MetricsState)
    (v : ℚ) (u : String)
    (h : frameStep t sz st = .ok (out, st2))
    (he : out.bitrateEmit = some (v, u)) :
    (u = "Mbps" ↔ 2000 < (((st.total_size + sz : Nat) : ℚ) * 8) / 1000) ∧
    (u = "Mbps" → v = ((((st.total_size + sz : Nat) : ℚ) * 8) / 1000) / 1000) ∧
    (u = "kbps" → v = (((st.total_size + sz : Nat) : ℚ) * 8) / 1000) := by
  rcases frameStep_emit_cases t sz st out st2 v u h he with
    ⟨hgt, hv, hu⟩ | ⟨hle, hv, hu⟩
  · refine ⟨⟨fun _ => hgt, fun _ => hu⟩, fun _ => hv, fun hk => ?_⟩
    rw [hu] at hk
    exact absurd hk (by decide)
  · refine ⟨⟨fun hm => ?_, fun hgt => absurd hgt hle⟩, fun hm => ?_, fun _ => hv⟩
    · rw [hu] at hm
      exact absurd hm (by decide)
    · rw [hu] at hm
      exact absurd hm (by decide)

/-- Witness for `frameStep_unit_strict_threshold`: frame at time 1,
500000 bytes - the kbps value is 4000 > 2000, so the code emits
4 "Mbps". -/
theorem frameStep_unit_strict_threshold_witness :
    ("Mbps" = "Mbps" ↔ 2000 < ((((0 + 500000 : Nat)) : ℚ) * 8) / 1000) ∧
    ("Mbps" = "Mbps" → (4 : ℚ) = (((((0 + 500000 : Nat)) : ℚ) * 8) / 1000) / 1000) ∧
    ("Mbps" = "kbps" → (4 : ℚ) = ((((0 + 500000 : Nat)) : ℚ) * 8) / 1000) :=
  frameStep_unit_strict_threshold 1 500000
    { fps_history := [], histCap := 120, prev_time := 0, frame_count := 0, total_size := 0 }
    { fpsEmit := 1, bitrateEmit := some (4, "Mbps") }
    { fps_history := [1], histCap := 120, prev_time := 1, frame_count := 0, total_size := 0 }
    4 "Mbps" (by norm_num [frameStep, dequeAppend]) rfl

/-- C3 counterexample: a frame of exactly 250000 bytes at time 1, from a
fresh session state opened at time 0, gives a computed value of exactly
2000 kbps; 2000 ≥ 2000, yet the code emits the pair (2000, "kbps"), not
(2, "Mbps") - the claimed "at least 2000" threshold does not match the
source's strict comparison. -/
theorem frameStep_unit_at_exact_2000 :
    frameStep 1 250000
        { fps_history := [], histCap := 120, prev_time := 0,
          frame_count := 0, total_size := 0 } =
      .ok ({ fpsEmit := 1, bitrateEmit := some (2000, "kbps") },
           { fps_history := [1], histCap := 120, prev_time := 1,
             frame_count := 0, total_size := 0 }) ∧
    (2000 : ℚ) ≥ 2000 ∧
    ("kbps" : String) ≠ "Mbps" := by
  refine ⟨by norm_num [frameStep, dequeAppend], by norm_num, by decide⟩

/-! ## C4: no division-by-zero guard -/

/-- C4: the source has NO guard against equal consecutive timestamps:
line 79 computes `1.0 / (current_time - prev_time)` unconditionally, so
when a frame arrives with the same timestamp as the previous one the
computation raises `ZeroDivisionError` (crashing the read loop) instead
of skipping the sample. -/
theorem frameStep_zero_interval_raises (t : ℚ) (sz : Nat) (hist : List ℚ)
    (cap fc ts : Nat) :
    frameStep t sz
        { fps_history := hist, histCap := cap, prev_time := t,
          frame_count := fc, total_size := ts } =
      .error .zeroDivision := by
  simp [frameStep]

/-! ## C5 and C6: the handshake -/

/-- C5: when the client sends a full 1536-byte hello and a full
1536-byte ack, the handshake completes as Established and the server
performs exactly two writes, both 1536 bytes: the first is the fixed
version byte 3 followed by the 1535 server-generated random bytes, and
the second is byte-equal to the original client hello. -/
theorem handshake_full_exchange (rand c1 c2 : List Nat)
    (hr : rand.length = 1535) (h1 : c1.length = 1536)
    (h2 : c2.length = 1536) :
    (handle_client rand c1 c2).state = .Established ∧
    (handle_client rand c1 c2).writes = [3 :: rand, c1] ∧
    (handle_client rand c1 c2).writes.length = 2 ∧
    ∀ w ∈ (handle_client rand c1 c2).writes, w.length = 1536 := by
  refine ⟨rfl, rfl, rfl, ?_⟩
  intro w hw
  simp only [handle_client, List.mem_cons, List.not_mem_nil, or_false] at hw
  rcases hw with h | h <;> subst h
  · simp only [List.length_cons, hr]
  · exact h1

/-- Witness for `handshake_full_exchange` at a concrete full exchange. -/
theorem handshake_full_exchange_witness :
    (handle_client (List.replicate 1535 0) (List.replicate 1536 1)
        (List.replicate 1536 2)).state = .Established ∧
    (handle_client (List.replicate 1535 0) (List.replicate 1536 1)
        (List.replicate 1536 2)).writes =
      [3 :: List.replicate 1535 0, List.replicate 1536 1] ∧
    (handle_client (List.replicate 1535 0) (List.replicate 1536 1)
        (List.replicate 1536 2)).writes.length = 2 ∧
    ∀ w ∈ (handle_client (List.replicate 1535 0) (List.replicate 1536 1)
        (List.replicate 1536 2)).writes, w.length = 1536 :=
  handshake_full_exchange (List.replicate 1535 0) (List.replicate 1536 1)
    (List.replicate 1536 2) (List.length_replicate 1535 0)
    (List.length_replicate 1536 1) (List.length_replicate 1536 2)

/-- C6, corrected: `handle_client` never validates the handshake read
lengths.  Whatever the two `reader.read(1536)` calls return - short,
empty (peer closed), or full - it performs BOTH server writes, the
second echoing whatever hello prefix was read, and completes the
handshake as established; no transition to Aborted exists in the
handshake code. -/
theorem handshake_no_length_validation (rand c1 c2 : List Nat) :
    (handle_client rand c1 c2).writes = [3 :: rand, c1] ∧
    (handle_client rand c1 c2).writes.length = 2 ∧
    (handle_client rand c1 c2).state = .Established ∧
    (handle_client rand c1 c2).state ≠ .Aborted :=
  ⟨rfl, rfl, rfl, by simp [handle_client]⟩

/-- C6 counterexample: a connection whose hello read returns only 500
bytes (spec section 8's scenario).  The claim says the state machine
goes directly to Aborted with no further server handshake write; the
code instead performs both writes (the second being the 500-byte echo)
and completes as Established. -/
theorem handshake_short_hello_not_aborted :
    (handle_client (List.replicate 1535 0) (List.replicate 500 7) []).state =
      .Established ∧
    (handle_client (List.replicate 1535 0) (List.replicate 500 7) []).state ≠
      .Aborted ∧
    (handle_client (List.replicate 1535 0) (List.replicate 500 7) []).writes =
      [3 :: List.replicate 1535 0, List.replicate 500 7] ∧
    (handle_client (List.replicate 1535 0) (List.replicate 500 7)
        []).writes.length = 2 ∧
    (List.replicate (500 : Nat) (7 : Nat)).length ≠ 1536 := by
  refine ⟨rfl, by decide, rfl, rfl, ?_⟩
  rw [List.length_replicate]
  decide

/-! ## C7 and C10: session seeding and history persistence -/

/-- Shared helper: the first frame read after a session open, when the
carried-over history has room.  `prev_time` was seeded with the open
time (line 65), so the frame's instantaneous fps is the reciprocal of
the open-to-first-frame interval; it is appended to the carried history
and the emitted average is taken over old and new samples together. -/
theorem frameStep_after_open (cap : Nat) (h1 : List ℚ)
    (hlen : h1.length < cap) (t2 t : ℚ) (sz : Nat) (ht : t ≠ t2) :
    ∃ out st2, frameStep t sz (sessionInit cap h1 t2) = .ok (out, st2) ∧
      st2.fps_history = h1 ++ [1 / (t - t2)] ∧
      out.fpsEmit = (h1 ++ [1 / (t - t2)]).sum / ((h1.length + 1 : Nat) : ℚ) := by
  have hdt : t - t2 ≠ 0 := sub_ne_zero.mpr ht
  have hda : dequeAppend cap h1 (1 / (t - t2)) = h1 ++ [1 / (t - t2)] := by
    unfold dequeAppend
    dsimp only
    rw [if_neg]
    simp only [List.length_append, List.length_cons, List.length_nil]
    omega
  unfold frameStep sessionInit
  dsimp only
  rw [if_neg hdt, hda]
  split
  · exact ⟨_, _, rfl, rfl, by simp⟩
  · exact ⟨_, _, rfl, rfl, by simp⟩

/-- C7, corrected: the timing state is seeded at session open
(`prev_time = time.time()`, line 65), not at the first frame - so the
first frame read after a successful open ALREADY emits an FPS sample,
computed from the open-to-first-frame interval, and that sample enters
the history; a second frame is not needed. -/
theorem first_frame_emits_sample (cap : Nat) (hcap : 0 < cap)
    (t0 t1 : ℚ) (sz : Nat) (h : t1 ≠ t0) :
    ∃ out st2, frameStep t1 sz (sessionInit cap [] t0) = .ok (out, st2) ∧
      out.fpsEmit = 1 / (t1 - t0) ∧ st2.fps_history = [1 / (t1 - t0)] := by
  obtain ⟨out, st2, hs, hh, hf⟩ :=
    frameStep_after_open cap [] (by simpa using hcap) t0 t1 sz h
  refine ⟨out, st2, hs, ?_, by simpa using hh⟩
  rw [hf]
  simp

/-- Witness for `first_frame_emits_sample`: session opened at time 0,
first frame at time 2 - an FPS sample of 1/2 is emitted at once. -/
theorem first_frame_emits_sample_witness :
    ∃ out st2, frameStep 2 100 (sessionInit 120 [] 0) = .ok (out, st2) ∧
      out.fpsEmit = 1 / ((2 : ℚ) - 0) ∧ st2.fps_history = [1 / ((2 : ℚ) - 0)] :=
  first_frame_emits_sample 120 (by norm_num) 0 2 100 (by norm_num)

/-- C7 counterexample: a session opened at time 0 whose inner loop reads
a single frame (time 1, 100 bytes).  The claim says no interval-based
FPS sample is emitted until a second frame arrives; the code emits one
FPS sample (value 1, from the open-to-first-frame interval) on this very
first frame. -/
theorem first_frame_emission_counterexample :
    (runFrames (sessionInit 120 [] 0) [(1, 100)]).1.map FrameOutput.fpsEmit =
      [1] ∧
    (runFrames (sessionInit 120 [] 0) [(1, 100)]).1.length = 1 ∧
    (runFrames (sessionInit 120 [] 0) [(1, 100)]).1.length ≠ 0 := by
  norm_num [runFrames, frameStep, sessionInit, dequeAppend]

/-- C10: the `fps_history` deque is created once per worker (line 58)
and no session boundary clears it.  At each successful open the bitrate
accumulator fields are reset (`frame_count = 0`, `total_size = 0`,
lines 66-67) while the history is left untouched; the two-session worker
run threads session 1's final history straight into session 2; and when
the carried history still has room, the first average emitted after the
reconnect is taken over the previous session's samples together with the
new one. -/
theorem fps_history_persists_across_sessions (cap : Nat)
    (s1 : SessionScript) (t2 t : ℚ) (sz : Nat) (fr2 : List (ℚ × Nat))
    (hlen : (runSession cap [] s1).2.length < cap) (ht : t ≠ t2) :
    (sessionInit cap (runSession cap [] s1).2 t2).fps_history =
      (runSession cap [] s1).2 ∧
    (sessionInit cap (runSession cap [] s1).2 t2).frame_count = 0 ∧
    (sessionInit cap (runSession cap [] s1).2 t2).total_size = 0 ∧
    runWorkerSessions cap [] [s1, ⟨t2, fr2⟩] =
      (runSession cap (runSession cap [] s1).2 ⟨t2, fr2⟩).2 ∧
    ∃ out st2,
      frameStep t sz (sessionInit cap (runSession cap [] s1).2 t2) =
        .ok (out, st2) ∧
      st2.fps_history = (runSession cap [] s1).2 ++ [1 / (t - t2)] ∧
      out.fpsEmit = ((runSession cap [] s1).2 ++ [1 / (t - t2)]).sum /
        (((runSession cap [] s1).2.length + 1 : Nat) : ℚ) :=
  ⟨rfl, rfl, rfl, rfl,
    frameStep_after_open cap (runSession cap [] s1).2 hlen t2 t sz ht⟩

/-- Witness for `fps_history_persists_across_sessions`: session 1 opens
at time 0 and reads one frame at time 1 (history becomes [1]); the
worker reconnects at time 10 and the first frame of session 2 arrives
at time 21/2, so the new sample 2 joins the old sample 1 and the first
average after the reconnect is (1 + 2) / 2. -/
theorem fps_history_persists_across_sessions_witness :
    (sessionInit 120 (runSession 120 [] ⟨0, [(1, 100)]⟩).2 10).fps_history =
      (runSession 120 [] ⟨0, [(1, 100)]⟩).2 ∧
    (sessionInit 120 (runSession 120 [] ⟨0, [(1, 100)]⟩).2 10).frame_count = 0 ∧
    (sessionInit 120 (runSession 120 [] ⟨0, [(1, 100)]⟩).2 10).total_size = 0 ∧
    runWorkerSessions 120 [] [⟨0, [(1, 100)]⟩, ⟨10, [(21/2, 50)]⟩] =
      (runSession 120 (runSession 120 [] ⟨0, [(1, 100)]⟩).2
        ⟨10, [(21/2, 50)]⟩).2 ∧
    ∃ out st2,
      frameStep (21/2) 50
          (sessionInit 120 (runSession 120 [] ⟨0, [(1, 100)]⟩).2 10) =
        .ok (out, st2) ∧
      st2.fps_history =
        (runSession 120 [] ⟨0, [(1, 100)]⟩).2 ++ [1 / ((21/2 : ℚ) - 10)] ∧
      out.fpsEmit =
        ((runSession 120 [] ⟨0, [(1, 100)]⟩).2 ++ [1 / ((21/2 : ℚ) - 10)]).sum /
          (((runSession 120 [] ⟨0, [(1, 100)]⟩).2.length + 1 : Nat) : ℚ) :=
  fps_history_persists_across_sessions 120 ⟨0, [(1, 100)]⟩ 10 (21/2) 50
    [(21/2, 50)]
    (by norm_num [runSession, runFrames, frameStep, sessionInit, dequeAppend])
    (by norm_num)

/-! ## C8: stop during the reconnect backoff -/

theorem workerRun_add (m n : Nat) (s : WorkerState) :
    workerRun (m + n) s = workerRun n (workerRun m s) := by
  induction m generalizing s with
  | zero =>
      rw [Nat.zero_add]
      rfl
  | succ k ih =>
      rw [Nat.succ_add]
      show workerRun (k + n) (workerStep s) = _
      rw [ih (workerStep s)]
      rfl

theorem workerRun_sleep_to_loopTop (r : Nat) :
    ∀ s : WorkerState, s.phase = .sleeping r →
      workerRun (r + 1) s = { s with phase := .loopTop } := by
  induction r with
  | zero =>
      intro s hp
      obtain ⟨ph, fl, oa⟩ := s
      dsimp only at hp
      subst hp
      rfl
  | succ k ih =>
      intro s hp
      obtain ⟨ph, fl, oa⟩ := s
      dsimp only at hp
      subst hp
      show workerRun (k + 1) (workerStep ⟨.sleeping (k + 1), fl, oa⟩) = _
      exact ih ⟨.sleeping k, fl, oa⟩ rfl

theorem workerRun_still_sleeping (k : Nat) :
    ∀ (r : Nat) (s : WorkerState), k ≤ r → s.phase = .sleeping r →
      workerRun k s = { s with phase := .sleeping (r - k) } := by
  induction k with
  | zero =>
      intro r s _ hp
      obtain ⟨ph, fl, oa⟩ := s
      dsimp only at hp
      subst hp
      rfl
  | succ j ih =>
      intro r s hk hp
      obtain ⟨ph, fl, oa⟩ := s
      dsimp only at hp
      subst hp
      cases r with
      | zero => omega
      | succ m =>
          show workerRun j (workerStep ⟨.sleeping (m + 1), fl, oa⟩) = _
          rw [show workerStep ⟨.sleeping (m + 1), fl, oa⟩ =
                ⟨.sleeping m, fl, oa⟩ from rfl,
              ih m ⟨.sleeping m, fl, oa⟩ (by omega) rfl]
          congr 2
          omega

/-- C8, corrected: when `stop()` is invoked while the worker is in its
reconnect backoff sleep with `r` milliseconds remaining, the sleep runs
to completion - `msleep(1000)` at line 108 is not interruptible and
`stop()` only clears `_run_flag` - and the worker then exits at the very
next `while self._run_flag` check: exit comes within the remainder of
the current backoff interval (at most 1000 ms of sleep plus the loop
check), with NO additional open attempt performed after the stop. -/
theorem stop_during_backoff_exits_without_retry (r a : Nat)
    (hr : r ≤ 1000) :
    workerRun (r + 2) (stopWorker ⟨.sleeping r, true, a⟩) =
      ⟨.exited, false, a⟩ ∧
    r + 2 ≤ 1002 := by
  refine ⟨?_, by omega⟩
  rw [show stopWorker ⟨.sleeping r, true, a⟩ = ⟨.sleeping r, false, a⟩ from rfl]
  rw [show r + 2 = (r + 1) + 1 from rfl, workerRun_add (r + 1) 1]
  rw [workerRun_sleep_to_loopTop r ⟨.sleeping r, false, a⟩ rfl]
  rfl

/-- Witness for `stop_during_backoff_exits_without_retry`: stop arrives
right at the start of a full 1000 ms backoff sleep. -/
theorem stop_during_backoff_exits_without_retry_witness :
    workerRun (1000 + 2) (stopWorker ⟨.sleeping 1000, true, 0⟩) =
      ⟨.exited, false, 0⟩ ∧
    1000 + 2 ≤ 1002 :=
  stop_during_backoff_exits_without_retry 1000 0 (by omega)

/-- C8 counterexample: the backoff wait is NOT interrupted by `stop()`.
With the flag cleared at the start of a 1000 ms sleep, the worker is
still sleeping one step later, is still only reaching the end of the
sleep 1000 steps later, and exits only after the full sleep has elapsed
plus the loop check - refuting the claim's "the wait is interrupted
immediately". -/
theorem stop_does_not_interrupt_backoff_sleep :
    (workerRun 1 (stopWorker ⟨.sleeping 1000, true, 0⟩)).phase =
      .sleeping 999 ∧
    (workerRun 1000 (stopWorker ⟨.sleeping 1000, true, 0⟩)).phase =
      .sleeping 0 ∧
    (workerRun (1000 + 2) (stopWorker ⟨.sleeping 1000, true, 0⟩)).phase =
      .exited := by
  have hs : stopWorker ⟨.sleeping 1000, true, 0⟩ =
      ⟨.sleeping 1000, false, 0⟩ := rfl
  refine ⟨?_, ?_, ?_⟩
  · rw [hs, show (1 : Nat) = 1 from rfl,
        workerRun_still_sleeping 1 1000 ⟨.sleeping 1000, false, 0⟩
          (by omega) rfl]
  · rw [hs,
        workerRun_still_sleeping 1000 1000 ⟨.sleeping 1000, false, 0⟩
          (by omega) rfl]
  · rw [hs, show (1000 : Nat) + 2 = 1001 + 1 from rfl,
        workerRun_add 1001 1,
        workerRun_sleep_to_loopTop 1000 ⟨.sleeping 1000, false, 0⟩ rfl]
    rfl

/-! ## C9: resolution emitted once per session -/

theorem frameEvents_countP_resolution (out : FrameOutput) :
    (frameEvents out).countP isResolutionEv = 0 := by
  obtain ⟨f, b⟩ := out
  cases b with
  | none => rfl
  | some p =>
      obtain ⟨v, u⟩ := p
      rfl

theorem flatMap_frameEvents_countP_resolution (outs : List FrameOutput) :
    (outs.flatMap frameEvents).countP isResolutionEv = 0 := by
  induction outs with
  | nil => rfl
  | cons o rest ih =>
      rw [List.flatMap_cons, List.countP_append,
          frameEvents_countP_resolution, ih]

/-- C9: within one successful session of `VideoThread.run`, the
resolution event is emitted exactly once (line 72), right after the
status flip and before any per-frame event, and never again during the
inner read loop - however many frames the session reads. -/
theorem resolution_emitted_once_per_session (w h cap : Nat)
    (hist : List ℚ) (t0 : ℚ) (frames : List (ℚ × Nat)) :
    ∃ rest, sessionEvents w h cap hist t0 frames =
        Ev.status true :: Ev.resolution w h :: rest ∧
      rest.countP isResolutionEv = 0 ∧
      (sessionEvents w h cap hist t0 frames).countP isResolutionEv = 1 := by
  unfold sessionEvents
  dsimp only
  refine ⟨_, rfl, ?_, ?_⟩
  · rw [List.countP_append, flatMap_frameEvents_countP_resolution]
    cases (runFrames (sessionInit cap hist t0) frames).2.2 with
    | none => rfl
    | some e => rfl
  · rw [List.countP_cons, List.countP_cons, List.countP_append,
        flatMap_frameEvents_countP_resolution]
    cases (runFrames (sessionInit cap hist t0) frames).2.2 with
    | none => rfl
    | some e => rfl

end RTMPViewer
